import Mathlib

/-!
Shallow embedding of the nano-redbox annotation editor
(src/App.tsx, src/components/Editor in src/utils/canvas.ts,
src/components/CompareSlider.tsx, src/services/gemini in src/unnamed/part_000,
src/types in src/unnamed/part_001, src/constants in src/utils/canvas.ts).

Pixel coordinates (JS numbers) are modelled as rationals; JS arrays as lists;
`undefined`/nullable values as `Option`; thrown errors as `Except`.
-/

namespace NanoRedbox

/-- src/types: `AnnotationColor = 'red' | 'yellow' | 'cyan'`. -/
inductive AnnotationColor where
  | red
  | yellow
  | cyan
  deriving DecidableEq, Repr

/-- src/types: `Tool = 'select' | 'rect' | 'text'`. -/
inductive Tool where
  | select
  | rect
  | text
  deriving DecidableEq, Repr

/-- src/types: `Point`. -/
structure Point where
  x : ℚ
  y : ℚ
  deriving DecidableEq, Repr

/-- src/types: `Annotation` (rectangle in source-image pixel space plus note and color). -/
structure Annotation where
  id : String
  x : ℚ
  y : ℚ
  width : ℚ
  height : ℚ
  text : String
  color : AnnotationColor
  deriving DecidableEq, Repr

/-- Editor drag mode: `'move' | 'resize-se'` (the `dragMode` state). -/
inductive DragMode where
  | move
  | resizeSE
  deriving DecidableEq, Repr

/-- The transient rectangle held in `currentRect` (a `Partial<Annotation>` carrying
only geometry in the source). -/
structure Rect where
  x : ℚ
  y : ℚ
  width : ℚ
  height : ℚ
  deriving DecidableEq, Repr

/-- The Editor component's state hooks (`tool`, `selectedId`, `activeColor`,
`history`, `historyIndex`, plus the annotations prop and the drawing/dragging state). -/
structure EditorState where
  tool : Tool
  selectedId : Option String
  activeColor : AnnotationColor
  history : List (List Annotation)
  historyIndex : Nat
  annotations : List Annotation
  isDrawing : Bool
  startPoint : Option Point
  currentRect : Option Rect
  dragMode : Option DragMode
  dragOffset : Option Point
  deriving DecidableEq, Repr

/-- Source `updateAnnotationsWithHistory`: truncate the history after the cursor
(`history.slice(0, historyIndex + 1)`), push the new snapshot, move the cursor to
the last position and display the new snapshot. -/
def updateAnnotationsWithHistory (s : EditorState) (newAnnotations : List Annotation) :
    EditorState :=
  let newHistory := s.history.take (s.historyIndex + 1) ++ [newAnnotations]
  { s with
    history := newHistory
    historyIndex := newHistory.length - 1
    annotations := newAnnotations }

/-- Source `undo`: if the cursor is not at the first snapshot, move it back one and display
that snapshot (`setAnnotations(history[historyIndex - 1])`), clearing the selection. -/
def undo (s : EditorState) : EditorState :=
  if 0 < s.historyIndex then
    { s with
      historyIndex := s.historyIndex - 1
      annotations := (s.history[s.historyIndex - 1]?).getD []
      selectedId := none }
  else s

/-- Source `redo`: if the cursor is not at the last snapshot, move it forward one and display
that snapshot (`setAnnotations(history[historyIndex + 1])`), clearing the selection. -/
def redo (s : EditorState) : EditorState :=
  if s.historyIndex < s.history.length - 1 then
    { s with
      historyIndex := s.historyIndex + 1
      annotations := (s.history[s.historyIndex + 1]?).getD []
      selectedId := none }
  else s

/-- The history invariant: the cursor is in range and points at the currently
displayed snapshot. -/
def cursorInvariant (s : EditorState) : Prop :=
  s.historyIndex < s.history.length ∧ s.history[s.historyIndex]? = some s.annotations

instance (s : EditorState) : Decidable (cursorInvariant s) := by
  unfold cursorInvariant
  infer_instance

/-- Source `handleMouseDown`, select tool: hit test for the resize handle at the bottom-right
corner of the currently selected annotation (`Math.abs(imgX - right) < handleSize`). -/
def hitResizeHandle (s : EditorState) (scale imgX imgY : ℚ) : Bool :=
  match s.selectedId with
  | none => false
  | some sid =>
    match s.annotations.find? (fun a => a.id = sid) with
    | none => false
    | some selected =>
      let handleSize := 10 / scale
      let right := selected.x + selected.width
      let bottom := selected.y + selected.height
      decide (|imgX - right| < handleSize) && decide (|imgY - bottom| < handleSize)

/-- Source `handleMouseDown`, select tool: body hit test — the topmost-drawn annotation whose
rectangle contains the point (`annotations.slice().reverse().find(...)`). -/
def hitBody (annotations : List Annotation) (imgX imgY : ℚ) : Option Annotation :=
  annotations.reverse.find? (fun a =>
    decide (a.x ≤ imgX) && decide (imgX ≤ a.x + a.width) &&
    decide (a.y ≤ imgY) && decide (imgY ≤ a.y + a.height))

/-- Source `handleMouseDown` (pointer coordinates already divided by the display scale,
as `imgX = x / scale` in the source). -/
def handleMouseDown (s : EditorState) (scale imgX imgY : ℚ) : EditorState :=
  if s.tool = Tool.select then
    if hitResizeHandle s scale imgX imgY then
      { s with dragMode := some DragMode.resizeSE, isDrawing := true }
    else
      match hitBody s.annotations imgX imgY with
      | some clicked =>
        { s with
          selectedId := some clicked.id
          dragMode := some DragMode.move
          dragOffset := some ⟨imgX - clicked.x, imgY - clicked.y⟩
          isDrawing := true }
      | none => { s with selectedId := none }
  else if s.tool = Tool.rect then
    { s with
      selectedId := none
      isDrawing := true
      startPoint := some ⟨imgX, imgY⟩
      currentRect := some ⟨imgX, imgY, 0, 0⟩ }
  else s

/-- Source `handleMouseMove`: while drawing a rectangle, normalize the transient rectangle so
that drags in any direction give non-negative width/height; while moving or resizing a
selected annotation, update just that annotation (resize clamps both dimensions to at
least 10 via `Math.max(10, ...)`). -/
def handleMouseMove (s : EditorState) (imgX imgY : ℚ) : EditorState :=
  if !s.isDrawing then s
  else if s.tool = Tool.rect then
    match s.startPoint with
    | some sp =>
      let width := imgX - sp.x
      let height := imgY - sp.y
      { s with
        currentRect := some
          { x := if 0 < width then sp.x else imgX
            y := if 0 < height then sp.y else imgY
            width := |width|
            height := |height| } }
    | none => s
  else if s.tool = Tool.select then
    match s.selectedId with
    | none => s
    | some sid =>
      match s.dragMode with
      | some DragMode.move =>
        match s.dragOffset with
        | some off =>
          { s with
            annotations := s.annotations.map (fun a =>
              if a.id = sid then { a with x := imgX - off.x, y := imgY - off.y } else a) }
        | none => s
      | some DragMode.resizeSE =>
        match s.annotations.find? (fun a => a.id = sid) with
        | some selected =>
          let newW := max 10 (imgX - selected.x)
          let newH := max 10 (imgY - selected.y)
          { s with
            annotations := s.annotations.map (fun a =>
              if a.id = sid then { a with width := newW, height := newH } else a) }
        | none => s
      | none => s
  else s

/-- Source `handleMouseUp` commit condition for a newly drawn rectangle:
`tool === 'rect' && currentRect && currentRect.width && currentRect.width > 5`
(a JS number is truthy exactly when it is nonzero). -/
def newRectCommitted (tool : Tool) (currentRect : Option Rect) : Bool :=
  decide (tool = Tool.rect) &&
    (match currentRect with
     | some r => (!decide (r.width = 0)) && decide (5 < r.width)
     | none => false)

/-- Source `handleMouseUp`: commit a newly drawn rectangle (if large enough) or a completed
drag to history, then reset the transient drawing state. `newId` models
`Math.random().toString(36).substr(2, 9)`. -/
def handleMouseUp (s : EditorState) (newId : String) : EditorState :=
  let s1 :=
    if s.isDrawing then
      if newRectCommitted s.tool s.currentRect then
        match s.currentRect with
        | some r =>
          let newAnn : Annotation :=
            { id := newId, x := r.x, y := r.y, width := r.width, height := r.height,
              text := "", color := s.activeColor }
          let s2 := updateAnnotationsWithHistory s (s.annotations ++ [newAnn])
          { s2 with selectedId := some newId, tool := Tool.select }
        | none => s
      else if s.dragMode.isSome then
        updateAnnotationsWithHistory s s.annotations
      else s
    else s
  { s1 with isDrawing := false, startPoint := none, currentRect := none, dragMode := none }

/-- The axis-aligned bounding box of two points. -/
def boundingBox (p q : Point) : Rect :=
  { x := min p.x q.x
    y := min p.y q.y
    width := max p.x q.x - min p.x q.x
    height := max p.y q.y - min p.y q.y }

/-- src/constants: `COLOR_MAP` (annotation color → CSS hex color string). -/
def COLOR_MAP : AnnotationColor → String
  | AnnotationColor.red => "#FF3B30"
  | AnnotationColor.yellow => "#FFCC00"
  | AnnotationColor.cyan => "#5AC8FA"

/-- src/constants: `STROKE_WIDTH`. -/
def STROKE_WIDTH : ℚ := 3

/-- src/constants: `MAX_IMAGE_DIMENSION`. -/
def MAX_IMAGE_DIMENSION : Nat := 4096

/-- The underlying JS string value of an `AnnotationColor` literal
(`'red' | 'yellow' | 'cyan'`). -/
def AnnotationColor.jsString : AnnotationColor → String
  | AnnotationColor.red => "red"
  | AnnotationColor.yellow => "yellow"
  | AnnotationColor.cyan => "cyan"

/-- src/constants: `DEFAULT_INSTRUCTION_TEMPLATE(color)`. -/
def DEFAULT_INSTRUCTION_TEMPLATE (color : String) : String :=
  "Read and interpret all " ++ color ++
    " text annotations within the image. For each annotation, apply the requested modification only to the corresponding highlighted area. Do not alter or modify any other part of the image. Ensure that all edits blend naturally and look realistic, preserving original lighting, shadows, and textures. After applying all modifications, remove every " ++
    color ++ " text annotation and its corresponding " ++ color ++
    " box so that no editing marks remain visible in the final image."

/-- src/constants: `CLEAN_UP_INSTRUCTION(color)`. -/
def CLEAN_UP_INSTRUCTION (color : String) : String :=
  "Remove any remaining " ++ color ++ " text and " ++ color ++
    " boxes without changing image content."

/-- Source `colors.filter(v => v === c).length` — the number of occurrences of a color. -/
def countColor (colors : List AnnotationColor) (c : AnnotationColor) : Nat :=
  (colors.filter (fun v => v = c)).length

/-- The comparator `(a,b) => colors.filter(v=>v===a).length - colors.filter(v=>v===b).length`
(ascending by occurrence count), as the boolean order the sort establishes. -/
def colorLe (colors : List AnnotationColor) (a b : AnnotationColor) : Bool :=
  decide (countColor colors a ≤ countColor colors b)

/-- src/App.tsx `generateEdit`: the dominant-color computation —
`colors.sort((a,b) => colors.filter(v=>v===a).length - colors.filter(v=>v===b).length).pop() || 'red'`.
The comparator sort is modelled as a (stable) merge sort by occurrence count over the
color multiset (a sort only permutes the array, so the counts the comparator reads are
those of the original multiset); `.pop()` reads the last element, `|| 'red'` supplies
the default on an empty list. -/
def dominantColor (annotations : List Annotation) : AnnotationColor :=
  ((((annotations.map (fun a => a.color)).mergeSort
      (colorLe (annotations.map (fun a => a.color)))).getLast?).getD
    AnnotationColor.red)

/-- A loaded `HTMLImageElement`: natural pixel dimensions plus the element `width`
property (for the off-DOM images `loadImage` produces, `width = naturalWidth`). -/
structure Image where
  naturalWidth : Nat
  naturalHeight : Nat
  width : Nat
  height : Nat
  deriving DecidableEq, Repr

/-- A recorded 2D-canvas drawing command (the context operations flattening performs). -/
inductive DrawOp where
  | drawImage (naturalWidth naturalHeight : Nat) (dx dy : ℚ)
  | strokeRect (x y w h : ℚ) (strokeStyle : String) (lineWidth : ℚ)
  | fillText (text : String) (x y : ℚ) (fillStyle : String) (font : String)
  deriving DecidableEq, Repr

/-- An offscreen canvas: pixel dimensions plus the recorded drawing commands. -/
structure Canvas where
  width : Nat
  height : Nat
  ops : List DrawOp
  deriving DecidableEq, Repr

/-- The word-wrap loop of `flattenAnnotations`: greedy line-breaking of the note text
against the box's inner width, emitting one `fillText` per completed line and one for
the final line. `measureText` abstracts `ctx.measureText(...).width`; `n` is the loop
index (a line break never happens at `n = 0`). -/
def wrapTextOps (measureText : String → ℚ) (color font : String) (fontSize x : ℚ)
    (maxWidth : ℚ) : List String → Nat → String → ℚ → List DrawOp
  | [], _, line, y => [DrawOp.fillText line x y color font]
  | w :: ws, n, line, y =>
    let testLine := line ++ w ++ " "
    let testWidth := measureText testLine
    if maxWidth < testWidth ∧ 0 < n then
      DrawOp.fillText line x y color font ::
        wrapTextOps measureText color font fontSize x maxWidth ws (n + 1) (w ++ " ")
          (y + fontSize * (12 / 10))
    else
      wrapTextOps measureText color font fontSize x maxWidth ws (n + 1) testLine y

/-- The drawing commands `flattenAnnotations` records for one annotation: the stroked
box, then (when the note text is non-empty, i.e. truthy) the word-wrapped note text at
a font size of `Math.max(16, Math.floor(img.width / 50))`. -/
def annotationOps (measureText : String → ℚ) (imgWidth : Nat) (ann : Annotation) :
    List DrawOp :=
  let color := COLOR_MAP ann.color
  let boxOp := DrawOp.strokeRect ann.x ann.y ann.width ann.height color STROKE_WIDTH
  if ann.text = "" then [boxOp]
  else
    let fontSizeNat := max 16 (imgWidth / 50)
    let fontSize : ℚ := fontSizeNat
    let font := "bold " ++ toString fontSizeNat ++ "px Inter, sans-serif"
    let words := ann.text.split (fun c => c = ' ')
    let y := ann.y + 5
    let x := ann.x + 5
    let maxWidth := ann.width - 10
    boxOp :: wrapTextOps measureText color font fontSize x maxWidth words 0 "" y

/-- src/utils/canvas.ts `flattenAnnotations`: create a canvas with the loaded image's
natural pixel dimensions, draw the original image at the origin, then draw each
annotation's box and wrapped note text in order. -/
def flattenAnnotations (measureText : String → ℚ) (img : Image)
    (annotations : List Annotation) : Canvas :=
  { width := img.naturalWidth
    height := img.naturalHeight
    ops := DrawOp.drawImage img.naturalWidth img.naturalHeight 0 0 ::
      annotations.flatMap (annotationOps measureText img.width) }

/-- The App component state that `generateEdit` reads. -/
structure AppState where
  imageSrc : Option String
  annotations : List Annotation
  generatedImage : Option String
  deriving DecidableEq, Repr

/-- src/App.tsx `generateEdit`: the (input image, instruction) pair passed to
`geminiService.editImage`. Returns `none` when `imageSrc` is absent (the early
`if (!imageSrc) return`). In the cleanup branch (`cleanup && generatedImage`) the
previous generated image and the fixed cleanup instruction (always `'red'`) are used;
in the normal flow the annotations are flattened onto the source image and the
instruction is templated from the dominant color. `toDataURL` encoding is abstracted
as `encode`, and `loadImage` on a data URL as `loadedImage`. -/
def generateEditRequest (measureText : String → ℚ) (encode : Canvas → String)
    (loadedImage : String → Image) (s : AppState) (cleanup : Bool) :
    Option (String × String) :=
  match s.imageSrc with
  | none => none
  | some src =>
    match cleanup, s.generatedImage with
    | true, some gen => some (gen, CLEAN_UP_INSTRUCTION "red")
    | _, _ =>
      let dominant := dominantColor s.annotations
      some (encode (flattenAnnotations measureText (loadedImage src) s.annotations),
        DEFAULT_INSTRUCTION_TEMPLATE dominant.jsString)

/-- A concrete editor state (two history snapshots, cursor at the first) used as a
witness input for the history invariant. -/
def hcWitnessState : EditorState :=
  { tool := Tool.select, selectedId := none, activeColor := AnnotationColor.red,
    history := [[], [⟨"idB", 5, 6, 70, 80, "x", AnnotationColor.yellow⟩]],
    historyIndex := 0, annotations := [],
    isDrawing := false, startPoint := none, currentRect := none,
    dragMode := none, dragOffset := none }

/-- A concrete snapshot committed in the history-invariant witness. -/
def hcWitnessSnap : List Annotation :=
  [⟨"idC", 7, 8, 90, 100, "y", AnnotationColor.red⟩]

/-- A concrete editor state in the middle of a resize drag of the selected
annotation, used as a witness input. -/
def rszWitnessState : EditorState :=
  { tool := Tool.select, selectedId := some "idA", activeColor := AnnotationColor.red,
    history := [[], [⟨"idA", 20, 20, 40, 40, "", AnnotationColor.red⟩]],
    historyIndex := 1,
    annotations := [⟨"idA", 20, 20, 40, 40, "", AnnotationColor.red⟩],
    isDrawing := true, startPoint := none, currentRect := none,
    dragMode := some DragMode.resizeSE, dragOffset := none }

/-- Field `part.inlineData` in a Gemini response part. -/
structure InlineData where
  data : String
  deriving DecidableEq, Repr

/-- A part of a response candidate's content (inline image data or text). -/
structure ResponsePart where
  inlineData : Option InlineData
  text : Option String
  deriving DecidableEq, Repr

/-- Field `candidate.content` in a Gemini response. -/
structure Content where
  parts : Option (List ResponsePart)
  deriving DecidableEq, Repr

/-- A candidate of a Gemini response. -/
structure Candidate where
  content : Option Content
  deriving DecidableEq, Repr

/-- The fields of a `generateContent` response that `editImage` reads. -/
structure GenerateContentResponse where
  candidates : Option (List Candidate)
  deriving DecidableEq, Repr

/-- src/services/gemini: `base64Image.split(',')[1] || base64Image` — strip a data-URL
header when present (JS `||`: an undefined or empty second piece falls back). -/
def cleanBase64 (base64Image : String) : String :=
  match (base64Image.split (fun c => c = ','))[1]? with
  | some s => if s ≠ "" then s else base64Image
  | none => base64Image

/-- src/services/gemini `GeminiService.editImage`, with the awaited network response
passed as an argument: fail when the API key is missing; otherwise return the inline
image data of the first part of the first candidate as a data URL, and fail with
"No image generated in response." when that first part carries none. JS truthiness:
an empty string is falsy. -/
def editImage (apiKey : String) (base64Image : String)
    (response : GenerateContentResponse) : Except String String :=
  if apiKey = "" then
    Except.error "API Key not found. Please set the API_KEY environment variable."
  else
    match ((response.candidates.bind (fun cs => cs[0]?)).bind
        (fun c => c.content)).bind (fun ct => ct.parts) with
    | some parts =>
      if 0 < parts.length then
        match parts[0]? with
        | some part =>
          match part.inlineData with
          | some d =>
            if d.data ≠ "" then
              Except.ok ("data:image/png;base64," ++ d.data)
            else Except.error "No image generated in response."
          | none => Except.error "No image generated in response."
        | none => Except.error "No image generated in response."
      else Except.error "No image generated in response."
    | none => Except.error "No image generated in response."

/-- The condition the code actually commits on: the first part of the first
candidate's content carries non-empty inline image data. -/
def firstPartHasInlineImage (response : GenerateContentResponse) : Bool :=
  match ((response.candidates.bind (fun cs => cs[0]?)).bind
      (fun c => c.content)).bind (fun ct => ct.parts) with
  | none => false
  | some parts =>
    decide (0 < parts.length) &&
      (match parts[0]? with
       | none => false
       | some part =>
         match part.inlineData with
         | none => false
         | some d => decide (d.data ≠ ""))

/-- Following the spec's words for the claim: the response "contains inline image
data" — some part of some candidate carries non-empty inline image data. -/
def responseHasInlineImage_spec (response : GenerateContentResponse) : Bool :=
  match response.candidates with
  | none => false
  | some cs => cs.any (fun c =>
      match c.content with
      | none => false
      | some ct =>
        match ct.parts with
        | none => false
        | some ps => ps.any (fun p =>
            match p.inlineData with
            | none => false
            | some d => decide (d.data ≠ "")))

/-- src/components/CompareSlider.tsx `handleMove`: clamp the pointer's horizontal
offset into the container to `[0, width]`
(`Math.max(0, Math.min(clientX - rect.left, rect.width))`) and express it as a
percentage of the container width. -/
def handleMove (rectLeft rectWidth clientX : ℚ) : ℚ :=
  let x := max 0 (min (clientX - rectLeft) rectWidth)
  (x / rectWidth) * 100

/-- C1: during a rectangle-tool drag, a newly drawn rectangle whose width is at most
the minimum-size threshold (5 image pixels) is discarded on pointer-up: the annotation
list is unchanged and no history snapshot is pushed. -/
theorem rect_below_min_size_discarded (s : EditorState) (newId : String) (r : Rect)
    (hdraw : s.isDrawing = true) (htool : s.tool = Tool.rect)
    (hdm : s.dragMode = none) (hrect : s.currentRect = some r) (hsmall : r.width ≤ 5) :
    (handleMouseUp s newId).annotations = s.annotations ∧
    (handleMouseUp s newId).history = s.history := by
  have hcommit : newRectCommitted s.tool s.currentRect = false := by
    have hnlt : ¬ (5 < r.width) := not_lt.mpr hsmall
    simp [newRectCommitted, hrect, hnlt]
  simp [handleMouseUp, hdraw, hcommit, hdm]

/-- Closed witness for C1: pointer-up on a concrete drawing state whose transient
rectangle has width 3 leaves the annotation list and the history untouched. -/
theorem rect_below_min_size_discarded_witness :
    (handleMouseUp
      { tool := Tool.rect, selectedId := none, activeColor := AnnotationColor.red,
        history := [[]], historyIndex := 0, annotations := [], isDrawing := true,
        startPoint := some ⟨0, 0⟩, currentRect := some ⟨0, 0, 3, 4⟩,
        dragMode := none, dragOffset := none } "a1b2c3d4e").annotations = [] ∧
    (handleMouseUp
      { tool := Tool.rect, selectedId := none, activeColor := AnnotationColor.red,
        history := [[]], historyIndex := 0, annotations := [], isDrawing := true,
        startPoint := some ⟨0, 0⟩, currentRect := some ⟨0, 0, 3, 4⟩,
        dragMode := none, dragOffset := none } "a1b2c3d4e").history = [[]] :=
  rect_below_min_size_discarded _ "a1b2c3d4e" ⟨0, 0, 3, 4⟩ rfl rfl rfl rfl (by norm_num)

/-- C6: during a rectangle-tool drag, every pointer-move sets the transient rectangle
to the axis-aligned bounding box of the drag start point and the current pointer
position, so its width and height are non-negative regardless of drag direction. -/
theorem drag_rect_is_bounding_box (s : EditorState) (sp : Point) (ix iy : ℚ)
    (hdraw : s.isDrawing = true) (htool : s.tool = Tool.rect)
    (hsp : s.startPoint = some sp) :
    (handleMouseMove s ix iy).currentRect = some (boundingBox sp ⟨ix, iy⟩) ∧
    0 ≤ (boundingBox sp ⟨ix, iy⟩).width ∧ 0 ≤ (boundingBox sp ⟨ix, iy⟩).height := by
  refine ⟨?_, ?_, ?_⟩
  · simp only [handleMouseMove, hdraw, htool, hsp, Bool.not_true, Bool.false_eq_true,
      if_false, if_true]
    congr 1
    unfold boundingBox
    congr 1
    · split
      · next h => exact (min_eq_left (by linarith)).symm
      · next h => exact (min_eq_right (by linarith)).symm
    · split
      · next h => exact (min_eq_left (by linarith)).symm
      · next h => exact (min_eq_right (by linarith)).symm
    · rw [max_sub_min_eq_abs]
    · rw [max_sub_min_eq_abs]
  · simp [boundingBox, sub_nonneg, min_le_max]
  · simp [boundingBox, sub_nonneg, min_le_max]

/-- Closed witness for C6: a concrete up-left drag (start (10, 8), pointer (2, 3))
produces the transient rectangle (2, 3, 8, 5), the bounding box of the endpoints. -/
theorem drag_rect_is_bounding_box_witness :
    (handleMouseMove
      { tool := Tool.rect, selectedId := none, activeColor := AnnotationColor.red,
        history := [[]], historyIndex := 0, annotations := [], isDrawing := true,
        startPoint := some ⟨10, 8⟩, currentRect := some ⟨10, 8, 0, 0⟩,
        dragMode := none, dragOffset := none } 2 3).currentRect =
      some (boundingBox ⟨10, 8⟩ ⟨2, 3⟩) ∧
    0 ≤ (boundingBox (⟨10, 8⟩ : Point) ⟨2, 3⟩).width ∧
    0 ≤ (boundingBox (⟨10, 8⟩ : Point) ⟨2, 3⟩).height :=
  drag_rect_is_bounding_box _ ⟨10, 8⟩ 2 3 rfl rfl rfl

/-- C10: during a resize drag of the selected annotation, every pointer-move clamps the
selected annotation's width and height to at least 10 image pixels. -/
theorem resize_keeps_min_dims (s : EditorState) (sid : String) (ix iy : ℚ)
    (sel : Annotation)
    (hdraw : s.isDrawing = true) (htool : s.tool = Tool.select)
    (hsel : s.selectedId = some sid) (hdm : s.dragMode = some DragMode.resizeSE)
    (hfind : s.annotations.find? (fun a => a.id = sid) = some sel) :
    ∀ a ∈ (handleMouseMove s ix iy).annotations, a.id = sid →
      10 ≤ a.width ∧ 10 ≤ a.height := by
  intro a ha hid
  simp [handleMouseMove, hdraw, htool, hsel, hdm, hfind, List.mem_map] at ha
  obtain ⟨b, _, hb⟩ := ha
  by_cases hbid : b.id = sid
  · rw [if_pos hbid] at hb
    rw [← hb]
    exact ⟨le_max_left _ _, le_max_left _ _⟩
  · rw [if_neg hbid] at hb
    rw [← hb] at hid
    exact absurd hid hbid

/-- Closed witness for C10: resizing the selected concrete annotation with the pointer
dragged to (1, 1) clamps it to exactly 10 by 10, never smaller. -/
theorem resize_keeps_min_dims_witness :
    (⟨"idA", 20, 20, 10, 10, "", AnnotationColor.red⟩ : Annotation) ∈
      (handleMouseMove rszWitnessState 1 1).annotations ∧
    (10 ≤ ((⟨"idA", 20, 20, 10, 10, "", AnnotationColor.red⟩ : Annotation)).width ∧
      10 ≤ ((⟨"idA", 20, 20, 10, 10, "", AnnotationColor.red⟩ : Annotation)).height) := by
  have hlist : (handleMouseMove rszWitnessState 1 1).annotations =
      [⟨"idA", 20, 20, 10, 10, "", AnnotationColor.red⟩] := by
    simp [handleMouseMove, rszWitnessState]
    norm_num [max_eq_left]
  have hmem : (⟨"idA", 20, 20, 10, 10, "", AnnotationColor.red⟩ : Annotation) ∈
      (handleMouseMove rszWitnessState 1 1).annotations := by
    rw [hlist]
    exact List.mem_singleton_self _
  exact ⟨hmem,
    resize_keeps_min_dims rszWitnessState "idA" 1 1
      ⟨"idA", 20, 20, 40, 40, "", AnnotationColor.red⟩ rfl rfl rfl rfl (by decide)
      ⟨"idA", 20, 20, 10, 10, "", AnnotationColor.red⟩ hmem rfl⟩

/-- C4: from any state satisfying the cursor invariant in which undo is enabled
(cursor not at the first snapshot), undo followed by redo displays an annotation
snapshot equal to the one displayed before the undo. -/
theorem undo_redo_roundtrip (s : EditorState)
    (hinv : cursorInvariant s) (h0 : 0 < s.historyIndex) :
    (redo (undo s)).annotations = s.annotations := by
  obtain ⟨hlt, hget⟩ := hinv
  have h1 : s.historyIndex - 1 < s.history.length := by omega
  simp only [undo, if_pos h0]
  have hcond : s.historyIndex - 1 < s.history.length - 1 := by omega
  simp only [redo, hcond, if_true]
  have : s.historyIndex - 1 + 1 = s.historyIndex := by omega
  simp [this, hget]

/-- Closed witness for C4: on a concrete two-snapshot history with the cursor at the
second snapshot, undo then redo redisplays that snapshot. -/
theorem undo_redo_roundtrip_witness :
    (redo (undo
      { tool := Tool.select, selectedId := none, activeColor := AnnotationColor.red,
        history := [[], [⟨"idA", 1, 2, 30, 40, "note", AnnotationColor.cyan⟩]],
        historyIndex := 1,
        annotations := [⟨"idA", 1, 2, 30, 40, "note", AnnotationColor.cyan⟩],
        isDrawing := false, startPoint := none, currentRect := none,
        dragMode := none, dragOffset := none })).annotations =
      [⟨"idA", 1, 2, 30, 40, "note", AnnotationColor.cyan⟩] :=
  undo_redo_roundtrip _ ⟨by norm_num, rfl⟩ (by norm_num)

/-- C5: from any state satisfying the cursor invariant, (a) commit, undo and redo all
preserve the invariant that the cursor points at the displayed snapshot; (b) undo and
redo leave the stored snapshots unchanged; (c) a commit truncates the redo tail
(everything after the cursor), appends the new snapshot, and leaves the cursor at the
last position. -/
theorem history_cursor_invariant (s : EditorState) (a : List Annotation)
    (hinv : cursorInvariant s) :
    cursorInvariant (updateAnnotationsWithHistory s a) ∧
    cursorInvariant (undo s) ∧
    cursorInvariant (redo s) ∧
    (undo s).history = s.history ∧
    (redo s).history = s.history ∧
    (updateAnnotationsWithHistory s a).history =
      s.history.take (s.historyIndex + 1) ++ [a] ∧
    (updateAnnotationsWithHistory s a).historyIndex =
      (updateAnnotationsWithHistory s a).history.length - 1 := by
  obtain ⟨hlt, hget⟩ := hinv
  refine ⟨?_, ?_, ?_, ?_, ?_, rfl, rfl⟩
  · constructor
    · simp only [updateAnnotationsWithHistory, List.length_append, List.length_take,
        List.length_cons, List.length_nil]
      omega
    · simp only [updateAnnotationsWithHistory, List.length_append, List.length_take,
        List.length_cons, List.length_nil]
      have hlen : min (s.historyIndex + 1) s.history.length + 1 - 1 =
          (s.history.take (s.historyIndex + 1)).length := by
        simp only [List.length_take]
        omega
      rw [hlen, List.getElem?_concat_length]
  · unfold undo
    split
    · next h =>
      have h1 : s.historyIndex - 1 < s.history.length := by omega
      constructor
      · simpa using h1
      · simp [List.getElem?_eq_getElem h1]
    · exact ⟨hlt, hget⟩
  · unfold redo
    split
    · next h =>
      have h1 : s.historyIndex + 1 < s.history.length := by omega
      constructor
      · simpa using h1
      · simp [List.getElem?_eq_getElem h1]
    · exact ⟨hlt, hget⟩
  · unfold undo
    split <;> rfl
  · unfold redo
    split <;> rfl

/-- Closed witness for C5: the invariant holds after commit, undo and redo on a
concrete two-snapshot state, undo/redo leave the snapshots unchanged, and commit from
cursor position 0 truncates the redo tail before appending. -/
theorem history_cursor_invariant_witness :
    cursorInvariant (updateAnnotationsWithHistory hcWitnessState hcWitnessSnap) ∧
    cursorInvariant (undo hcWitnessState) ∧
    cursorInvariant (redo hcWitnessState) ∧
    (undo hcWitnessState).history = hcWitnessState.history ∧
    (redo hcWitnessState).history = hcWitnessState.history ∧
    (updateAnnotationsWithHistory hcWitnessState hcWitnessSnap).history =
      hcWitnessState.history.take (hcWitnessState.historyIndex + 1) ++ [hcWitnessSnap] ∧
    (updateAnnotationsWithHistory hcWitnessState hcWitnessSnap).historyIndex =
      (updateAnnotationsWithHistory hcWitnessState hcWitnessSnap).history.length - 1 :=
  history_cursor_invariant hcWitnessState hcWitnessSnap ⟨by decide, rfl⟩

/-- In a `Pairwise R` list, every element is the last one or relates to it. -/
theorem pairwise_rel_getLast {α : Type} {R : α → α → Prop} :
    ∀ (l : List α) (hne : l ≠ []), l.Pairwise R →
      ∀ x ∈ l, x = l.getLast hne ∨ R x (l.getLast hne) := by
  intro l
  induction l with
  | nil => intro hne; exact absurd rfl hne
  | cons a t ih =>
    intro hne hp x hx
    match t with
    | [] =>
      simp only [List.mem_cons, List.not_mem_nil, or_false] at hx
      subst hx
      left
      rfl
    | b :: t' =>
      rw [List.pairwise_cons] at hp
      obtain ⟨ha, hp'⟩ := hp
      have hne' : b :: t' ≠ [] := by simp
      rw [List.getLast_cons hne']
      rcases List.mem_cons.mp hx with heq | hmem
      · subst heq
        exact Or.inr (ha _ (List.getLast_mem hne'))
      · exact ih hne' hp' x hmem

/-- The dominant color's occurrence count is maximal among the annotations' colors
(when the annotation list is non-empty). -/
theorem countColor_le_dominant (annotations : List Annotation)
    (hne : annotations ≠ []) (c : AnnotationColor) :
    countColor (annotations.map (fun a => a.color)) c ≤
      countColor (annotations.map (fun a => a.color)) (dominantColor annotations) := by
  set colors := annotations.map (fun a => a.color) with hcolors
  have htrans : ∀ a b c' : AnnotationColor, colorLe colors a b = true →
      colorLe colors b c' = true → colorLe colors a c' = true := by
    intro a b c' hab hbc
    simp only [colorLe, decide_eq_true_iff] at *
    omega
  have htotal : ∀ a b : AnnotationColor,
      (colorLe colors a b || colorLe colors b a) = true := by
    intro a b
    simp only [colorLe, Bool.or_eq_true, decide_eq_true_iff]
    omega
  have hpw := List.sorted_mergeSort htrans htotal colors
  have hperm := List.mergeSort_perm colors (colorLe colors)
  have hcne : colors ≠ [] := by
    simp only [hcolors, ne_eq, List.map_eq_nil_iff]
    exact hne
  have hsne : colors.mergeSort (colorLe colors) ≠ [] := by
    intro h
    rw [h] at hperm
    exact hcne hperm.nil_eq.symm
  have hdom : dominantColor annotations =
      (colors.mergeSort (colorLe colors)).getLast hsne := by
    unfold dominantColor
    rw [← hcolors, List.getLast?_eq_getLast _ hsne]
    rfl
  by_cases hc : c ∈ colors
  · have hcs : c ∈ colors.mergeSort (colorLe colors) := hperm.mem_iff.mpr hc
    rcases pairwise_rel_getLast _ hsne hpw c hcs with heq | hrel
    · rw [hdom, ← heq]
    · rw [hdom]
      simpa only [colorLe, decide_eq_true_iff] using hrel
  · have hzero : countColor colors c = 0 := by
      unfold countColor
      rw [List.filter_eq_nil_iff.mpr]
      · rfl
      · intro v hv
        simp only [decide_eq_true_iff]
        intro hvc
        exact hc (hvc ▸ hv)
    rw [hzero]
    exact Nat.zero_le _

/-- C2: in the normal (non-cleanup) flow with a non-empty annotation list, the
instruction is templated from the dominant color — a color whose occurrence count
among the current annotations' colors is maximal. -/
theorem normal_flow_uses_dominant_color (measureText : String → ℚ)
    (encode : Canvas → String) (loadedImage : String → Image) (s : AppState)
    (src : String) (hsrc : s.imageSrc = some src) (hne : s.annotations ≠ []) :
    ∃ d : AnnotationColor,
      generateEditRequest measureText encode loadedImage s false =
        some (encode (flattenAnnotations measureText (loadedImage src) s.annotations),
          DEFAULT_INSTRUCTION_TEMPLATE d.jsString) ∧
      ∀ c : AnnotationColor,
        countColor (s.annotations.map (fun a => a.color)) c ≤
          countColor (s.annotations.map (fun a => a.color)) d := by
  refine ⟨dominantColor s.annotations, ?_,
    fun c => countColor_le_dominant _ hne c⟩
  simp [generateEditRequest, hsrc]

/-- Closed witness for C2: with annotations colored cyan, red, cyan on a concrete
state, the normal-flow request is templated from a color of maximal count. -/
theorem normal_flow_uses_dominant_color_witness :
    ∃ d : AnnotationColor,
      generateEditRequest (fun _ => 0) (fun _ => "encoded") (fun _ => ⟨500, 500, 500, 500⟩)
        { imageSrc := some "data:src",
          annotations := [⟨"i1", 0, 0, 20, 20, "", AnnotationColor.cyan⟩,
            ⟨"i2", 1, 1, 20, 20, "", AnnotationColor.red⟩,
            ⟨"i3", 2, 2, 20, 20, "", AnnotationColor.cyan⟩],
          generatedImage := none } false =
        some ((fun _ => "encoded") (flattenAnnotations (fun _ => 0) ⟨500, 500, 500, 500⟩
            [⟨"i1", 0, 0, 20, 20, "", AnnotationColor.cyan⟩,
              ⟨"i2", 1, 1, 20, 20, "", AnnotationColor.red⟩,
              ⟨"i3", 2, 2, 20, 20, "", AnnotationColor.cyan⟩]),
          DEFAULT_INSTRUCTION_TEMPLATE d.jsString) ∧
      ∀ c : AnnotationColor,
        countColor [AnnotationColor.cyan, AnnotationColor.red, AnnotationColor.cyan] c ≤
          countColor [AnnotationColor.cyan, AnnotationColor.red, AnnotationColor.cyan] d :=
  normal_flow_uses_dominant_color (fun _ => 0) (fun _ => "encoded")
    (fun _ => ⟨500, 500, 500, 500⟩) _ "data:src" rfl (by simp)

/-- C3: a cleanup re-invocation on a prior generated result sends exactly the fixed
"remove remaining marks" instruction — independent of the current annotations — and
the previous generated image as the input, not a new flattening. -/
theorem cleanup_uses_fixed_instruction_and_previous_result (measureText : String → ℚ)
    (encode : Canvas → String) (loadedImage : String → Image) (s : AppState)
    (src gen : String) (hsrc : s.imageSrc = some src)
    (hgen : s.generatedImage = some gen) :
    generateEditRequest measureText encode loadedImage s true =
      some (gen,
        "Remove any remaining red text and red boxes without changing image content.") := by
  simp [generateEditRequest, hsrc, hgen, CLEAN_UP_INSTRUCTION]

/-- Closed witness for C3: a cleanup call on a concrete state whose annotations are
all cyan still sends the fixed red-marks cleanup instruction and the previous result. -/
theorem cleanup_uses_fixed_instruction_witness :
    generateEditRequest (fun _ => 0) (fun _ => "encoded") (fun _ => ⟨500, 500, 500, 500⟩)
      { imageSrc := some "data:src",
        annotations := [⟨"i1", 0, 0, 20, 20, "note", AnnotationColor.cyan⟩],
        generatedImage := some "data:prev-result" } true =
      some ("data:prev-result",
        "Remove any remaining red text and red boxes without changing image content.") :=
  cleanup_uses_fixed_instruction_and_previous_result (fun _ => 0) (fun _ => "encoded")
    (fun _ => ⟨500, 500, 500, 500⟩) _ "data:src" "data:prev-result" rfl rfl

/-- C7: the bitmap produced by flattening has exactly the pixel dimensions of the
original source bitmap, for every source image and annotation list. -/
theorem flatten_preserves_dimensions (measureText : String → ℚ) (img : Image)
    (annotations : List Annotation) :
    (flattenAnnotations measureText img annotations).width = img.naturalWidth ∧
    (flattenAnnotations measureText img annotations).height = img.naturalHeight :=
  ⟨rfl, rfl⟩

/-- C8 counterexample: a response whose first part is text and whose second part holds
the inline image data does contain inline image data, yet `editImage` fails with the
"no image" error — the code only inspects the first part of the first candidate. -/
theorem editImage_second_part_counterexample :
    responseHasInlineImage_spec
      ⟨some [⟨some ⟨some [⟨none, some "ok"⟩, ⟨some ⟨"IMGDATA"⟩, none⟩]⟩⟩]⟩ = true ∧
    editImage "key123" "data:image/png;base64,AAAA"
      ⟨some [⟨some ⟨some [⟨none, some "ok"⟩, ⟨some ⟨"IMGDATA"⟩, none⟩]⟩⟩]⟩ =
      Except.error "No image generated in response." := by
  constructor
  · rfl
  · rfl

/-- C8 (amended): `editImage` returns an image exactly when the API credential is
present and the first part of the response's first candidate carries inline image
data; in every other case (missing credential, or no inline image data in that first
part) it fails with a thrown error and produces no partial result. -/
theorem editImage_ok_iff (apiKey base64Image : String)
    (response : GenerateContentResponse) :
    (∃ img, editImage apiKey base64Image response = Except.ok img) ↔
      (apiKey ≠ "" ∧ firstPartHasInlineImage response = true) := by
  by_cases hk : apiKey = ""
  · simp [editImage, hk]
  · simp only [editImage, if_neg hk, ne_eq, hk, not_false_iff, true_and,
      firstPartHasInlineImage]
    cases hchain : ((response.candidates.bind (fun cs => cs[0]?)).bind
        (fun c => c.content)).bind (fun ct => ct.parts) with
    | none => simp
    | some parts =>
      by_cases h0 : 0 < parts.length
      · cases hp0 : parts[0]? with
        | none => simp [h0, hp0]
        | some part =>
          cases hd : part.inlineData with
          | none => simp [h0, hp0, hd]
          | some d =>
            by_cases hdd : d.data = ""
            · simp [h0, hp0, hd, hdd]
            · simp [h0, hp0, hd, hdd]
      · simp [h0]

/-- C9: during a compare-view drag, the divider position computed from the pointer's
horizontal coordinate is a percentage lying in [0, 100], for every pointer position
over a container of positive width. -/
theorem slider_position_clamped (rectLeft rectWidth clientX : ℚ)
    (hw : 0 < rectWidth) :
    0 ≤ handleMove rectLeft rectWidth clientX ∧
      handleMove rectLeft rectWidth clientX ≤ 100 := by
  unfold handleMove
  have hx0 : 0 ≤ max 0 (min (clientX - rectLeft) rectWidth) := le_max_left _ _
  have hxw : max 0 (min (clientX - rectLeft) rectWidth) ≤ rectWidth :=
    max_le hw.le (min_le_right _ _)
  constructor
  · exact mul_nonneg (div_nonneg hx0 hw.le) (by norm_num)
  · have h1 : max 0 (min (clientX - rectLeft) rectWidth) / rectWidth ≤ 1 :=
      (div_le_one hw).mpr hxw
    have h2 : max 0 (min (clientX - rectLeft) rectWidth) / rectWidth * 100 ≤ 1 * 100 :=
      mul_le_mul_of_nonneg_right h1 (by norm_num)
    simpa using h2

/-- Closed witness for C9: a concrete drag at clientX = 250 over a container of left
edge 100 and width 200 yields a divider position within [0, 100]. -/
theorem slider_position_clamped_witness :
    0 ≤ handleMove 100 200 250 ∧ handleMove 100 200 250 ≤ 100 :=
  slider_position_clamped 100 200 250 (by norm_num)

end NanoRedbox
